import Mathlib

/-
Shallow embedding of the employee-scheduling payroll engine
(src/payroll.py together with the data-store layer of src/database.py).

Modelling conventions:
* Hours and money are exact rationals (ℚ).  Python's `round(x, 2)` is
  round-half-to-even at two decimal places, modelled by `round2`; this agrees
  with CPython (which rounds the binary double correctly) whenever the value
  being rounded is exactly representable as a double, which holds for every
  concrete value appearing in the examples below.
* Calendar dates are day numbers (days since 1970-01-01); `daysFromCivil`
  converts a calendar date to its day number and `pyWeekday` is Python's
  `date.weekday()` (Monday = 0) on that representation.
* Time-of-day strings are Lean `String`s, parsed character by character the
  way `payroll.parse_time` does: split on ':', convert fields with Python's
  `int` (modelled by `pyInt`: optional sign followed by digits).
* The SQLite store is a `DB` value; `get_employee`, `get_employees` and
  `get_shifts_for_employee` mirror the SQL queries in database.py
  (`WHERE id = ?` on the primary key, `WHERE is_active = 1 ORDER BY name`,
  `WHERE employee_id = ? AND shift_date BETWEEN ? AND ? ORDER BY shift_date`).
  The settings table is modelled as the three numeric settings payroll.py
  reads from it.
* Python exceptions become `Except PayrollError`; `ValueError` from `int()`
  is `invalidTimeFormat`, the "Employee not found" `ValueError` is
  `employeeNotFound`.
-/

attribute [local semireducible] Rat.mul Rat.inv Rat.add Rat.sub Rat.ofScientific

/-- Python's bankers rounding `round(q)` to an integer: round half to even. -/
def pyRoundInt (q : ℚ) : ℤ :=
  if q - ⌊q⌋ < 1/2 then ⌊q⌋
  else if 1/2 < q - ⌊q⌋ then ⌊q⌋ + 1
  else if ⌊q⌋ % 2 = 0 then ⌊q⌋ else ⌊q⌋ + 1

/-- Python's `round(q, 2)`. -/
def round2 (q : ℚ) : ℚ := (pyRoundInt (q * 100) : ℚ) / 100

/-- An exact multiple of one hundredth: the values `round(_, 2)` produces. -/
def IsCent (q : ℚ) : Prop := ∃ k : ℤ, q = (k : ℚ) / 100

/-- Error type of the engine (payroll.py raises `ValueError` in both cases). -/
inductive PayrollError where
  | invalidTimeFormat (part : String)
  | employeeNotFound (employee_id : ℕ)
deriving Repr, DecidableEq

instance {e a : Type} [DecidableEq e] [DecidableEq a] : DecidableEq (Except e a) :=
  fun x y =>
    match x, y with
    | .ok u, .ok v => decidable_of_iff (u = v) (by simp)
    | .error u, .error v => decidable_of_iff (u = v) (by simp)
    | .ok _, .error _ => isFalse (by simp)
    | .error _, .ok _ => isFalse (by simp)

/-- Row of the `employees` table. -/
structure Employee where
  id : ℕ
  name : String
  hourly_rate : ℚ
  is_active : Bool
deriving Repr, DecidableEq

/-- Row of the `shifts` table. -/
structure Shift where
  employee_id : ℕ
  shift_date : ℤ
  start_time : String
  end_time : String
  lunch_start : Option String
  lunch_end : Option String
deriving Repr, DecidableEq

/-- The three settings payroll.py reads from the settings table. -/
structure OvertimeSettings where
  overtime_weekly_threshold : ℚ
  overtime_daily_threshold : ℚ
  overtime_multiplier : ℚ
deriving Repr, DecidableEq

/-- The SQLite database contents the engine depends on. -/
structure DB where
  employees : List Employee
  shifts : List Shift
  settings : OvertimeSettings
deriving Repr, DecidableEq

/-- payroll.DailyHours dataclass. -/
structure DailyHours where
  date : ℤ
  regular_hours : ℚ
  overtime_hours : ℚ
  total_hours : ℚ
deriving Repr, DecidableEq

/-- payroll.EmployeePayroll dataclass. -/
structure EmployeePayroll where
  employee_id : ℕ
  employee_name : String
  hourly_rate : ℚ
  daily_breakdown : List DailyHours
  total_regular_hours : ℚ
  total_overtime_hours : ℚ
  total_hours : ℚ
  regular_pay : ℚ
  overtime_pay : ℚ
  total_pay : ℚ
deriving Repr, DecidableEq

/-- The dict returned by payroll.calculate_payroll_report, flattened
(`summary` and `settings` sub-dicts inlined). -/
structure PayrollReport where
  start_date : ℤ
  end_date : ℤ
  employees : List EmployeePayroll
  total_employees : ℕ
  total_regular_hours : ℚ
  total_overtime_hours : ℚ
  total_hours : ℚ
  total_regular_pay : ℚ
  total_overtime_pay : ℚ
  total_pay : ℚ
  settings : OvertimeSettings
deriving Repr, DecidableEq

/-- Python's `time_str.split(':')` on the character list of the string:
splits at every colon, never merges, and the empty string yields `[[]]`. -/
def splitOnColon : List Char → List (List Char)
  | [] => [[]]
  | c :: rest =>
    let ps := splitOnColon rest
    if c = ':' then [] :: ps
    else (c :: ps.headD []) :: ps.tail

/-- Digit-list accumulator for `pyInt`. -/
def digitsVal : ℕ → List Char → Option ℕ
  | acc, [] => some acc
  | acc, c :: rest =>
    if c.isDigit then digitsVal (10 * acc + (c.toNat - 48)) rest else none

/-- Python's `int(s)` on a field: an optional sign followed by at least one
decimal digit.  `none` models the raised `ValueError`.  When `pyInt`
succeeds, CPython's `int` succeeds with the same value; on strings satisfying
`plainAscii` (printable ASCII, no underscore, hence no whitespace or digit
grouping for `int` to tolerate) the two agree exactly, failures included.
Outside that domain CPython can accept strings (`"1_0"`, `" 10"`, non-ASCII
digits) that this model rejects, so failure statements below are restricted
to `plainAscii` inputs. -/
def pyInt : List Char → Option ℤ
  | [] => none
  | '-' :: rest =>
    if rest.isEmpty then none else (digitsVal 0 rest).map (fun n => -(n : ℤ))
  | '+' :: rest =>
    if rest.isEmpty then none else (digitsVal 0 rest).map (fun n => (n : ℤ))
  | l => (digitsVal 0 l).map (fun n => (n : ℤ))

/-- The character domain on which `pyInt` agrees with CPython's `int`
exactly: ASCII with code point above 32, without underscores, ruling
out the whitespace stripping, `_` digit grouping and non-ASCII digits of
CPython that the model does not implement. -/
def plainAscii (l : List Char) : Bool :=
  l.all (fun c => 32 < c.toNat && c.toNat < 128 && c != '_')

/-- payroll.parse_time: `parts = time_str.split(':')`, then
`int(parts[0]), int(parts[1]) if len(parts) > 1 else 0`.  Note the minutes
field defaults to 0 when there is no colon, and fields past the second are
ignored. -/
def parse_time (time_str : String) : Except PayrollError (ℤ × ℤ) :=
  let parts := splitOnColon time_str.data
  match pyInt (parts.headD []) with
  | none => .error (.invalidTimeFormat (String.mk (parts.headD [])))
  | some h =>
    if parts.length > 1 then
      match pyInt (parts.getD 1 []) with
      | none => .error (.invalidTimeFormat (String.mk (parts.getD 1 [])))
      | some m => .ok (h, m)
    else .ok (h, 0)

/-- Python truthiness of the optional lunch columns: `None` and the empty
string are falsy. -/
def truthy : Option String → Bool
  | none => false
  | some s => !s.data.isEmpty

/-- payroll.calculate_shift_hours. -/
def calculate_shift_hours (start_time end_time : String)
    (lunch_start lunch_end : Option String) : Except PayrollError ℚ := do
  let s ← parse_time start_time
  let e ← parse_time end_time
  let start_minutes : ℤ := s.1 * 60 + s.2
  let end_raw : ℤ := e.1 * 60 + e.2
  let end_minutes : ℤ := if end_raw < start_minutes then end_raw + 24 * 60 else end_raw
  let base : ℤ := end_minutes - start_minutes
  let diff_minutes ←
    if truthy lunch_start && truthy lunch_end then do
      let ls ← parse_time (lunch_start.getD "")
      let lf ← parse_time (lunch_end.getD "")
      let lunch_duration : ℤ := (lf.1 * 60 + lf.2) - (ls.1 * 60 + ls.2)
      pure (if lunch_duration > 0 then base - lunch_duration else base)
    else pure base
  pure (round2 (((max 0 diff_minutes : ℤ) : ℚ) / 60))

/-- payroll.calculate_daily_overtime. -/
def calculate_daily_overtime (hours daily_threshold : ℚ) : ℚ × ℚ :=
  if hours ≤ daily_threshold then (hours, 0)
  else (daily_threshold, round2 (hours - daily_threshold))

/-- One iteration of the loop body of payroll.calculate_weekly_overtime,
before rounding: daily split, then the weekly-threshold reclassification.
Returns the day's (regular, overtime) as accumulated into
`cumulative_regular`. -/
def weeklyStep (weekly_threshold daily_threshold cumulative_regular hours : ℚ) : ℚ × ℚ :=
  let d := calculate_daily_overtime hours daily_threshold
  if cumulative_regular + d.1 > weekly_threshold then
    (max 0 (weekly_threshold - cumulative_regular),
     d.2 + (d.1 - max 0 (weekly_threshold - cumulative_regular)))
  else d

/-- The loop of payroll.calculate_weekly_overtime: appends the rounded pair
and carries the unrounded `cumulative_regular`. -/
def weeklyLoop (weekly_threshold daily_threshold : ℚ) : ℚ → List ℚ → List (ℚ × ℚ)
  | _, [] => []
  | cum, h :: rest =>
    let a := weeklyStep weekly_threshold daily_threshold cum h
    (round2 a.1, round2 a.2) :: weeklyLoop weekly_threshold daily_threshold (cum + a.1) rest

/-- payroll.calculate_weekly_overtime. -/
def calculate_weekly_overtime (daily_hours : List ℚ)
    (weekly_threshold daily_threshold : ℚ) : List (ℚ × ℚ) :=
  weeklyLoop weekly_threshold daily_threshold 0 daily_hours

/-- The unrounded per-day (regular, overtime) allocations of the same loop;
`calculate_weekly_overtime` is their image under coordinatewise `round2`. -/
def weeklyAllocs (weekly_threshold daily_threshold : ℚ) : ℚ → List ℚ → List (ℚ × ℚ)
  | _, [] => []
  | cum, h :: rest =>
    let a := weeklyStep weekly_threshold daily_threshold cum h
    a :: weeklyAllocs weekly_threshold daily_threshold (cum + a.1) rest

/-- The weekly allocator exactly as the specification words it (claim C1):
a single left-to-right fold carrying the running total of regular hours and
the output list. -/
def weeklySplitClaim (daily_hours : List ℚ) (weekly_threshold daily_threshold : ℚ) :
    List (ℚ × ℚ) :=
  (daily_hours.foldl
    (fun st h =>
      let d := calculate_daily_overtime h daily_threshold
      let allowed := if st.1 + d.1 > weekly_threshold then max 0 (weekly_threshold - st.1) else d.1
      let ot := if st.1 + d.1 > weekly_threshold
        then d.2 + (d.1 - max 0 (weekly_threshold - st.1)) else d.2
      (st.1 + allowed, st.2 ++ [(round2 allowed, round2 ot)]))
    ((0 : ℚ), ([] : List (ℚ × ℚ)))).2

/-- Days since 1970-01-01 of the civil date y-m-d (proleptic Gregorian),
the arithmetic Python's `datetime.date` implements. -/
def daysFromCivil (y m d : ℤ) : ℤ :=
  let y2 := if m ≤ 2 then y - 1 else y
  let era := Int.fdiv y2 400
  let yoe := y2 - era * 400
  let mp := (m + 9) % 12
  let doy := Int.fdiv (153 * mp + 2) 5 + d - 1
  let doe := yoe * 365 + Int.fdiv yoe 4 - Int.fdiv yoe 100 + doy
  era * 146097 + doe - 719468

/-- Python's `date.weekday()` on day numbers: Monday = 0 (day 0,
1970-01-01, was a Thursday). -/
def pyWeekday (d : ℤ) : ℤ := (d + 3) % 7

/-- The fixed reference Monday 2025-01-06 of payroll.get_biweekly_dates. -/
def anchorMonday : ℤ := daysFromCivil 2025 1 6

/-- `reference_date - timedelta(days=reference_date.weekday())`. -/
def week_start (reference_date : ℤ) : ℤ := reference_date - pyWeekday reference_date

/-- payroll.get_biweekly_dates (Python `//` is floor division, `Int.fdiv`). -/
def get_biweekly_dates (reference_date : ℤ) : ℤ × ℤ :=
  let ws := week_start reference_date
  let weeks_diff := Int.fdiv (ws - anchorMonday) 7
  let start := if weeks_diff % 2 = 0 then ws else ws - 7
  (start, start + 13)

/-- database.get_employee: `SELECT * FROM employees WHERE id = ?`
(id is the primary key, so the first match is the row). -/
def get_employee (db : DB) (employee_id : ℕ) : Option Employee :=
  db.employees.find? (fun e => e.id == employee_id)

/-- Byte-order comparison of names, SQLite's default `ORDER BY name`
collation. -/
def charListLe : List Char → List Char → Bool
  | [], _ => true
  | _ :: _, [] => false
  | a :: as, b :: bs => if a < b then true else if b < a then false else charListLe as bs

/-- Order on employee rows used by `ORDER BY name`. -/
def nameLe (a b : Employee) : Prop := charListLe a.name.data b.name.data = true

instance : DecidableRel nameLe :=
  fun a b => inferInstanceAs (Decidable (charListLe a.name.data b.name.data = true))

/-- database.get_employees: `WHERE is_active = 1` when `active_only`,
`ORDER BY name` (a stable sort). -/
def get_employees (db : DB) (active_only : Bool) : List Employee :=
  List.insertionSort nameLe
    (if active_only then db.employees.filter (fun e => e.is_active) else db.employees)

/-- database.get_shifts_for_employee:
`WHERE employee_id = ? AND shift_date BETWEEN ? AND ? ORDER BY shift_date`
(a stable sort). -/
def get_shifts_for_employee (db : DB) (employee_id : ℕ)
    (start_date end_date : ℤ) : List Shift :=
  List.insertionSort (fun a b => a.shift_date ≤ b.shift_date)
    (db.shifts.filter
      (fun s => s.employee_id == employee_id
        && decide (start_date ≤ s.shift_date) && decide (s.shift_date ≤ end_date)))

/-- The first loop of payroll.calculate_employee_payroll: hours for each
shift, in order; a parse error in any shift propagates. -/
def shiftHoursList : List Shift → Except PayrollError (List (ℤ × ℚ))
  | [] => .ok []
  | s :: rest => do
    let hours ← calculate_shift_hours s.start_time s.end_time s.lunch_start s.lunch_end
    let tail ← shiftHoursList rest
    .ok ((s.shift_date, hours) :: tail)

/-- `daily_hours_map.get(d, 0.0)`: Python dict semantics, the last binding
of a key wins. -/
def mapGet (m : List (ℤ × ℚ)) (d : ℤ) : ℚ :=
  match (m.filter (fun p => p.1 == d)).getLast? with
  | some p => p.2
  | none => 0

/-- The `while current <= end` date loop: all day numbers from
`start_date` to `end_date` inclusive, empty when `end_date < start_date`. -/
def dateRange (start_date end_date : ℤ) : List ℤ :=
  (List.range (end_date + 1 - start_date).toNat).map (fun i => start_date + i)

/-- payroll.calculate_employee_payroll. -/
def calculate_employee_payroll (db : DB) (employee_id : ℕ)
    (start_date end_date : ℤ)
    (overtime_weekly overtime_daily overtime_multiplier : ℚ) :
    Except PayrollError EmployeePayroll :=
  match get_employee db employee_id with
  | none => .error (.employeeNotFound employee_id)
  | some employee => do
    let shifts := get_shifts_for_employee db employee_id start_date end_date
    let daily_hours_map ← shiftHoursList shifts
    let all_dates := dateRange start_date end_date
    let daily_hours_list := all_dates.map (mapGet daily_hours_map)
    let overtime_results :=
      calculate_weekly_overtime daily_hours_list overtime_weekly overtime_daily
    let daily_breakdown := (all_dates.zip overtime_results).map
      (fun p => ({ date := p.1, regular_hours := p.2.1, overtime_hours := p.2.2,
                   total_hours := round2 (p.2.1 + p.2.2) } : DailyHours))
    let total_regular := (daily_breakdown.map (fun dh => dh.regular_hours)).sum
    let total_ot := (daily_breakdown.map (fun dh => dh.overtime_hours)).sum
    let total_hours := total_regular + total_ot
    let hourly_rate := employee.hourly_rate
    let regular_pay := round2 (total_regular * hourly_rate)
    let overtime_pay := round2 (total_ot * hourly_rate * overtime_multiplier)
    let total_pay := round2 (regular_pay + overtime_pay)
    .ok { employee_id := employee_id, employee_name := employee.name,
          hourly_rate := hourly_rate, daily_breakdown := daily_breakdown,
          total_regular_hours := round2 total_regular,
          total_overtime_hours := round2 total_ot,
          total_hours := round2 total_hours,
          regular_pay := regular_pay, overtime_pay := overtime_pay,
          total_pay := total_pay }

/-- The per-employee loop of payroll.calculate_payroll_report; the first
failure aborts the whole report. -/
def reportPayrolls (db : DB) (start_date end_date : ℤ)
    (overtime_weekly overtime_daily overtime_multiplier : ℚ) :
    List Employee → Except PayrollError (List EmployeePayroll)
  | [] => .ok []
  | e :: rest => do
    let p ← calculate_employee_payroll db e.id start_date end_date
      overtime_weekly overtime_daily overtime_multiplier
    let ps ← reportPayrolls db start_date end_date
      overtime_weekly overtime_daily overtime_multiplier rest
    .ok (p :: ps)

/-- payroll.calculate_payroll_report. -/
def calculate_payroll_report (db : DB) (start_date end_date : ℤ) :
    Except PayrollError PayrollReport := do
  let settings := db.settings
  let overtime_weekly := settings.overtime_weekly_threshold
  let overtime_daily := settings.overtime_daily_threshold
  let overtime_multiplier := settings.overtime_multiplier
  let employees := get_employees db true
  let payrolls ← reportPayrolls db start_date end_date
    overtime_weekly overtime_daily overtime_multiplier employees
  .ok { start_date := start_date, end_date := end_date, employees := payrolls,
        total_employees := payrolls.length,
        total_regular_hours := round2 ((payrolls.map (fun p => p.total_regular_hours)).sum),
        total_overtime_hours := round2 ((payrolls.map (fun p => p.total_overtime_hours)).sum),
        total_hours := round2 ((payrolls.map (fun p => p.total_hours)).sum),
        total_regular_pay := round2 ((payrolls.map (fun p => p.regular_pay)).sum),
        total_overtime_pay := round2 ((payrolls.map (fun p => p.overtime_pay)).sum),
        total_pay := round2 ((payrolls.map (fun p => p.total_pay)).sum),
        settings := settings }

/-- The "HH:MM 24-hour form" of the specification (claim C9): exactly two
digits, a colon, two digits, hour below 24 and minute below 60. -/
def isHHMM (s : String) : Bool :=
  match s.data with
  | [h1, h2, c, m1, m2] =>
    c = ':' && h1.isDigit && h2.isDigit && m1.isDigit && m2.isDigit
      && decide (10 * (h1.toNat - 48) + (h2.toNat - 48) < 24)
      && decide (10 * (m1.toNat - 48) + (m2.toNat - 48) < 60)
  | _ => false


/-- The `daily_hours_list` intermediate of payroll.calculate_employee_payroll:
hours per calendar day of the range, 0 for days without a shift. -/
def daily_hours_list_of (m : List (ℤ × ℚ)) (start_date end_date : ℤ) : List ℚ :=
  (dateRange start_date end_date).map (mapGet m)

/-- The `daily_breakdown` intermediate of payroll.calculate_employee_payroll. -/
def daily_breakdown_of (m : List (ℤ × ℚ)) (start_date end_date : ℤ)
    (overtime_weekly overtime_daily : ℚ) : List DailyHours :=
  ((dateRange start_date end_date).zip
      (calculate_weekly_overtime (daily_hours_list_of m start_date end_date)
        overtime_weekly overtime_daily)).map
    (fun p => ({ date := p.1, regular_hours := p.2.1, overtime_hours := p.2.2,
                 total_hours := round2 (p.2.1 + p.2.2) } : DailyHours))

/-- The EmployeePayroll record payroll.calculate_employee_payroll builds once
the employee row and the per-shift hours are known. -/
def payroll_of (emp : Employee) (employee_id : ℕ) (m : List (ℤ × ℚ))
    (start_date end_date : ℤ)
    (overtime_weekly overtime_daily overtime_multiplier : ℚ) : EmployeePayroll :=
  let daily_breakdown := daily_breakdown_of m start_date end_date overtime_weekly overtime_daily
  let total_regular := (daily_breakdown.map (fun dh => dh.regular_hours)).sum
  let total_ot := (daily_breakdown.map (fun dh => dh.overtime_hours)).sum
  { employee_id := employee_id, employee_name := emp.name,
    hourly_rate := emp.hourly_rate, daily_breakdown := daily_breakdown,
    total_regular_hours := round2 total_regular,
    total_overtime_hours := round2 total_ot,
    total_hours := round2 (total_regular + total_ot),
    regular_pay := round2 (total_regular * emp.hourly_rate),
    overtime_pay := round2 (total_ot * emp.hourly_rate * overtime_multiplier),
    total_pay := round2 (round2 (total_regular * emp.hourly_rate)
      + round2 (total_ot * emp.hourly_rate * overtime_multiplier)) }

/-- Concrete store for claim C5: one employee, two 2.5-hour shifts
(10:00 to 12:30) on consecutive days. -/
def c5db : DB :=
  { employees := [{ id := 1, name := "Ana", hourly_rate := 10, is_active := true }],
    shifts := [{ employee_id := 1, shift_date := 0, start_time := "10:00",
                 end_time := "12:30", lunch_start := none, lunch_end := none },
               { employee_id := 1, shift_date := 1, start_time := "10:00",
                 end_time := "12:30", lunch_start := none, lunch_end := none }],
    settings := { overtime_weekly_threshold := 40, overtime_daily_threshold := 8,
                  overtime_multiplier := 3/2 } }

/-- Concrete store for claim C6: one employee at rate 15.375 with a single
12-hour shift 06:00 to 18:00. -/
def c6db : DB :=
  { employees := [{ id := 1, name := "Ana", hourly_rate := 123/8, is_active := true }],
    shifts := [{ employee_id := 1, shift_date := 0, start_time := "06:00",
                 end_time := "18:00", lunch_start := none, lunch_end := none }],
    settings := { overtime_weekly_threshold := 40, overtime_daily_threshold := 8,
                  overtime_multiplier := 3/2 } }

/-- Concrete store for claim C8: a single active employee with id 1. -/
def c8db : DB :=
  { employees := [{ id := 1, name := "Ana", hourly_rate := 10, is_active := true }],
    shifts := [],
    settings := { overtime_weekly_threshold := 40, overtime_daily_threshold := 8,
                  overtime_multiplier := 3/2 } }

/-- `c8db` with the is_active flag flipped, all else equal. -/
def c8dbFlip : DB :=
  { employees := [{ id := 1, name := "Ana", hourly_rate := 10, is_active := false }],
    shifts := [],
    settings := { overtime_weekly_threshold := 40, overtime_daily_threshold := 8,
                  overtime_multiplier := 3/2 } }

/-- Concrete store for claim C7: one active employee without shifts and one
inactive employee, names out of order. -/
def c7db : DB :=
  { employees := [{ id := 2, name := "Bo", hourly_rate := 20, is_active := false },
                  { id := 1, name := "Ana", hourly_rate := 10, is_active := true }],
    shifts := [],
    settings := { overtime_weekly_threshold := 40, overtime_daily_threshold := 8,
                  overtime_multiplier := 3/2 } }

/-- The payroll record `calculate_employee_payroll c5db 1 0 1 (19/4) (19/8) (3/2)`
produces (checked in the C5 witness). -/
def c5payroll : EmployeePayroll :=
  { employee_id := 1, employee_name := "Ana", hourly_rate := 10,
    daily_breakdown :=
      [{ date := 0, regular_hours := 119/50, overtime_hours := 3/25, total_hours := 5/2 },
       { date := 1, regular_hours := 119/50, overtime_hours := 3/25, total_hours := 5/2 }],
    total_regular_hours := 119/25, total_overtime_hours := 6/25, total_hours := 5,
    regular_pay := 238/5, overtime_pay := 18/5, total_pay := 256/5 }

/-- The payroll record `calculate_employee_payroll c6db 1 0 0 40 10 (3/2)`
produces (checked in the C6 witness). -/
def c6payroll : EmployeePayroll :=
  { employee_id := 1, employee_name := "Ana", hourly_rate := 123/8,
    daily_breakdown :=
      [{ date := 0, regular_hours := 10, overtime_hours := 2, total_hours := 12 }],
    total_regular_hours := 10, total_overtime_hours := 2, total_hours := 12,
    regular_pay := 615/4, overtime_pay := 1153/25, total_pay := 19987/100 }

/-- The report `calculate_payroll_report c7db 0 1` produces (checked in the
C7 witness): only the active employee appears, zeroed. -/
def c7report : PayrollReport :=
  { start_date := 0, end_date := 1,
    employees :=
      [{ employee_id := 1, employee_name := "Ana", hourly_rate := 10,
         daily_breakdown :=
           [{ date := 0, regular_hours := 0, overtime_hours := 0, total_hours := 0 },
            { date := 1, regular_hours := 0, overtime_hours := 0, total_hours := 0 }],
         total_regular_hours := 0, total_overtime_hours := 0, total_hours := 0,
         regular_pay := 0, overtime_pay := 0, total_pay := 0 }],
    total_employees := 1, total_regular_hours := 0, total_overtime_hours := 0,
    total_hours := 0, total_regular_pay := 0, total_overtime_pay := 0, total_pay := 0,
    settings := { overtime_weekly_threshold := 40, overtime_daily_threshold := 8,
                  overtime_multiplier := 3/2 } }

/-! ### Basic facts about bankers rounding -/

theorem pyRoundInt_intCast (k : ℤ) : pyRoundInt (k : ℚ) = k := by
  unfold pyRoundInt
  rw [Int.floor_intCast]
  rw [if_pos]
  norm_num

theorem floor_le_pyRoundInt (q : ℚ) : ⌊q⌋ ≤ pyRoundInt q := by
  unfold pyRoundInt
  split_ifs <;> omega

theorem pyRoundInt_le_floor_add_one (q : ℚ) : pyRoundInt q ≤ ⌊q⌋ + 1 := by
  unfold pyRoundInt
  split_ifs <;> omega

theorem pyRoundInt_mono {x y : ℚ} (h : x ≤ y) : pyRoundInt x ≤ pyRoundInt y := by
  rcases lt_or_eq_of_le (Int.floor_mono h) with hf | hf
  · calc pyRoundInt x ≤ ⌊x⌋ + 1 := pyRoundInt_le_floor_add_one x
      _ ≤ ⌊y⌋ := hf
      _ ≤ pyRoundInt y := floor_le_pyRoundInt y
  · unfold pyRoundInt
    rw [← hf]
    split_ifs <;> first | omega | (exfalso; linarith)

theorem pyRoundInt_le (q : ℚ) : (pyRoundInt q : ℚ) ≤ q + 1/2 := by
  have h1 := Int.floor_le q
  have h2 := Int.lt_floor_add_one q
  unfold pyRoundInt
  split_ifs <;> push_cast <;> linarith

theorem le_pyRoundInt (q : ℚ) : q - 1/2 ≤ (pyRoundInt q : ℚ) := by
  have h1 := Int.floor_le q
  have h2 := Int.lt_floor_add_one q
  unfold pyRoundInt
  split_ifs <;> push_cast <;> linarith

theorem round2_mono {x y : ℚ} (h : x ≤ y) : round2 x ≤ round2 y := by
  unfold round2
  have := pyRoundInt_mono (mul_le_mul_of_nonneg_right h (by norm_num : (0:ℚ) ≤ 100))
  have : ((pyRoundInt (x * 100) : ℤ) : ℚ) ≤ ((pyRoundInt (y * 100) : ℤ) : ℚ) :=
    Int.cast_le.mpr this
  linarith

theorem round2_le (q : ℚ) : round2 q ≤ q + 1/200 := by
  unfold round2
  have := pyRoundInt_le (q * 100)
  linarith

theorem le_round2 (q : ℚ) : q - 1/200 ≤ round2 q := by
  unfold round2
  have := le_pyRoundInt (q * 100)
  linarith

theorem isCent_round2 (q : ℚ) : IsCent (round2 q) := ⟨pyRoundInt (q * 100), rfl⟩

theorem IsCent.round2_eq {q : ℚ} (h : IsCent q) : round2 q = q := by
  obtain ⟨k, rfl⟩ := h
  unfold round2
  rw [div_mul_cancel₀ (k : ℚ) (by norm_num : (100:ℚ) ≠ 0), pyRoundInt_intCast]

theorem isCent_zero : IsCent 0 := ⟨0, by norm_num⟩

theorem IsCent.add {p q : ℚ} (hp : IsCent p) (hq : IsCent q) : IsCent (p + q) := by
  obtain ⟨k, rfl⟩ := hp
  obtain ⟨m, rfl⟩ := hq
  exact ⟨k + m, by push_cast; ring⟩

theorem isCent_sum {l : List ℚ} (h : ∀ x ∈ l, IsCent x) : IsCent l.sum := by
  induction l with
  | nil => simpa using isCent_zero
  | cons a t ih =>
    rw [List.sum_cons]
    exact IsCent.add (h a (by simp)) (ih (fun x hx => h x (by simp [hx])))

theorem round2_zero : round2 0 = 0 := isCent_zero.round2_eq

theorem round2_nonneg {q : ℚ} (h : 0 ≤ q) : 0 ≤ round2 q := by
  have := round2_mono h
  rwa [round2_zero] at this

/-! ### Structure of the weekly allocator loop -/

theorem daily_regular_nonneg {h dt : ℚ} (hh : 0 ≤ h) (hdt : 0 ≤ dt) :
    0 ≤ (calculate_daily_overtime h dt).1 := by
  unfold calculate_daily_overtime
  split_ifs <;> simpa

theorem daily_ot_isCent (h dt : ℚ) : IsCent (calculate_daily_overtime h dt).2 := by
  unfold calculate_daily_overtime
  split_ifs
  · exact isCent_zero
  · exact isCent_round2 _

theorem weeklyStep_reg_le {wt dt c h : ℚ}
    (hd : 0 ≤ (calculate_daily_overtime h dt).1) :
    (weeklyStep wt dt c h).1 ≤ (calculate_daily_overtime h dt).1 := by
  unfold weeklyStep
  dsimp only
  split_ifs with htr
  · exact max_le hd (by linarith)
  · exact le_refl _

theorem weeklyStep_ot_ge {wt dt c h : ℚ}
    (hd : 0 ≤ (calculate_daily_overtime h dt).1) :
    (calculate_daily_overtime h dt).2 ≤ (weeklyStep wt dt c h).2 := by
  unfold weeklyStep
  dsimp only
  split_ifs with htr
  · have hm : max 0 (wt - c) ≤ (calculate_daily_overtime h dt).1 := max_le hd (by linarith)
    simp only
    linarith
  · exact le_refl _

theorem weeklyStep_cum_le {wt dt c h : ℚ} (hc : c ≤ wt) :
    c + (weeklyStep wt dt c h).1 ≤ wt := by
  unfold weeklyStep
  dsimp only
  split_ifs with htr
  · rcases le_total (wt - c) 0 with hle | hle
    · rw [max_eq_left hle]; dsimp only; linarith
    · rw [max_eq_right hle]; dsimp only; linarith
  · linarith

theorem weeklyLoop_eq_map (wt dt : ℚ) :
    ∀ (dh : List ℚ) (cum : ℚ),
      weeklyLoop wt dt cum dh
        = (weeklyAllocs wt dt cum dh).map (fun a => (round2 a.1, round2 a.2))
  | [], _ => rfl
  | h :: rest, cum => by
    simp only [weeklyLoop, weeklyAllocs, List.map_cons]
    rw [weeklyLoop_eq_map wt dt rest]

theorem weeklyLoop_length (wt dt : ℚ) :
    ∀ (dh : List ℚ) (cum : ℚ), (weeklyLoop wt dt cum dh).length = dh.length
  | [], _ => rfl
  | _ :: rest, cum => by
    simp only [weeklyLoop, List.length_cons]
    rw [weeklyLoop_length wt dt rest]

theorem weeklyAllocs_take (wt dt : ℚ) :
    ∀ (dh : List ℚ) (cum : ℚ) (n : ℕ),
      weeklyAllocs wt dt cum (dh.take n) = (weeklyAllocs wt dt cum dh).take n
  | [], _, n => by simp [weeklyAllocs]
  | h :: rest, cum, 0 => rfl
  | h :: rest, cum, n + 1 => by
    simp only [List.take_succ_cons, weeklyAllocs]
    rw [weeklyAllocs_take wt dt rest]

theorem weeklyAllocs_sum_le (wt dt : ℚ) :
    ∀ (dh : List ℚ) (c : ℚ), c ≤ wt →
      c + ((weeklyAllocs wt dt c dh).map Prod.fst).sum ≤ wt
  | [], c, hc => by simpa [weeklyAllocs]
  | h :: rest, c, hc => by
    simp only [weeklyAllocs, List.map_cons, List.sum_cons, ← add_assoc]
    exact weeklyAllocs_sum_le wt dt rest (c + (weeklyStep wt dt c h).1)
      (weeklyStep_cum_le hc)

theorem weeklySplitClaim_fold (wt dt : ℚ) :
    ∀ (dh : List ℚ) (cum : ℚ) (acc : List (ℚ × ℚ)),
      (dh.foldl
        (fun st h =>
          let d := calculate_daily_overtime h dt
          let allowed := if st.1 + d.1 > wt then max 0 (wt - st.1) else d.1
          let ot := if st.1 + d.1 > wt
            then d.2 + (d.1 - max 0 (wt - st.1)) else d.2
          (st.1 + allowed, st.2 ++ [(round2 allowed, round2 ot)]))
        (cum, acc)).2 = acc ++ weeklyLoop wt dt cum dh
  | [], cum, acc => by simp [weeklyLoop]
  | h :: rest, cum, acc => by
    by_cases htr : cum + (calculate_daily_overtime h dt).1 > wt
    · simp only [List.foldl_cons, weeklyLoop, weeklyStep, if_pos htr]
      rw [weeklySplitClaim_fold wt dt rest]
      simp
    · simp only [List.foldl_cons, weeklyLoop, weeklyStep, if_neg htr]
      rw [weeklySplitClaim_fold wt dt rest]
      simp

theorem weeklyLoop_getD (wt dt : ℚ) :
    ∀ (dh : List ℚ) (cum : ℚ) (i : ℕ), i < dh.length →
      (∀ h ∈ dh, 0 ≤ h) → 0 ≤ dt →
      (calculate_daily_overtime (dh.getD i 0) dt).2
          ≤ ((weeklyLoop wt dt cum dh).getD i (0, 0)).2
        ∧ ((weeklyLoop wt dt cum dh).getD i (0, 0)).1
          ≤ round2 (calculate_daily_overtime (dh.getD i 0) dt).1
  | [], _, i, hi, _, _ => absurd hi (by simp)
  | h :: rest, cum, 0, _, hh, hdt => by
    have hd : 0 ≤ (calculate_daily_overtime h dt).1 :=
      daily_regular_nonneg (hh h (by simp)) hdt
    constructor
    · have h1 : (calculate_daily_overtime h dt).2 ≤ (weeklyStep wt dt cum h).2 :=
        weeklyStep_ot_ge hd
      have h2 := round2_mono h1
      rw [(daily_ot_isCent h dt).round2_eq] at h2
      simpa [weeklyLoop] using h2
    · have h1 : (weeklyStep wt dt cum h).1 ≤ (calculate_daily_overtime h dt).1 :=
        weeklyStep_reg_le hd
      have h2 := round2_mono h1
      simpa [weeklyLoop] using h2
  | h :: rest, cum, i + 1, hi, hh, hdt => by
    have ht := weeklyLoop_getD wt dt rest (cum + (weeklyStep wt dt cum h).1) i
      (Nat.lt_of_succ_lt_succ hi) (fun x hx => hh x (by simp [hx])) hdt
    simpa [weeklyLoop] using ht

/-! ### Claim C1 -/

/-- C1 (counterexample): on days [10,10,10,10,10] with dailyThreshold 8 and
weeklyThreshold 40, `calculate_weekly_overtime` does NOT produce the output
[(8,2),(8,2),(8,2),(8,2),(0,10)] asserted by the claim: on day 5 the
cumulative regular is 32 and 32 + 8 = 40 does not exceed the threshold 40,
so no reclassification happens. -/
theorem c1_weekly_split_counterexample :
    calculate_weekly_overtime [10, 10, 10, 10, 10] 40 8
      ≠ [(8, 2), (8, 2), (8, 2), (8, 2), (0, 10)] := by decide

/-- C1 (amended): `calculate_weekly_overtime` returns one pair per input day
in order (equal length), computed by exactly the single left-to-right fold
the claim describes (`weeklySplitClaim`); but on [10,10,10,10,10] with
dailyThreshold 8 and weeklyThreshold 40 the output is
[(8,2),(8,2),(8,2),(8,2),(8,2)]: total regular 40, total overtime 10,
total hours 50. -/
theorem c1_weekly_split_amended :
    (∀ (dh : List ℚ) (wt dt : ℚ),
        calculate_weekly_overtime dh wt dt = weeklySplitClaim dh wt dt
          ∧ (calculate_weekly_overtime dh wt dt).length = dh.length) ∧
    calculate_weekly_overtime [10, 10, 10, 10, 10] 40 8
        = [(8, 2), (8, 2), (8, 2), (8, 2), (8, 2)] ∧
    ((calculate_weekly_overtime [10, 10, 10, 10, 10] 40 8).map Prod.fst).sum = 40 ∧
    ((calculate_weekly_overtime [10, 10, 10, 10, 10] 40 8).map Prod.snd).sum = 10 ∧
    ((calculate_weekly_overtime [10, 10, 10, 10, 10] 40 8).map
        (fun p => p.1 + p.2)).sum = 50 := by
  refine ⟨fun dh wt dt => ⟨?_, ?_⟩, by decide, by decide, by decide, by decide⟩
  · unfold calculate_weekly_overtime weeklySplitClaim
    rw [weeklySplitClaim_fold]
    simp
  · unfold calculate_weekly_overtime
    exact weeklyLoop_length wt dt dh 0

/-! ### Claim C3 -/

/-- C3 (counterexample): with hours [2.5] and dailyThreshold 2.375
(weeklyThreshold 40), the daily split is (2.375, 0.12) but the weekly
allocator outputs regular round2(2.375) = 2.38 > 2.375: because the output
is rounded to 2 decimals, the regular hours assigned by
`calculate_weekly_overtime` can exceed the unrounded daily-split regular
hours. -/
theorem c3_regular_rounding_counterexample :
    ¬ (((calculate_weekly_overtime [(5/2 : ℚ)] 40 (19/8)).getD 0 (0, 0)).1
        ≤ (calculate_daily_overtime ([(5/2 : ℚ)].getD 0 0) (19/8)).1) := by decide

/-- C3 (amended): for non-negative hours and dailyThreshold, each day's
output overtime is at least the overtime `calculate_daily_overtime` alone
assigns it, and the output regular hours are at most the 2-decimal rounding
of the daily-split regular hours (the rounding of the appended pair can push
the regular figure up to 0.005 above the exact daily-split value, so the
comparison holds after rounding the daily figure as well). -/
theorem c3_daily_overtime_preserved (dh : List ℚ) (wt dt : ℚ)
    (hh : ∀ h ∈ dh, 0 ≤ h) (hdt : 0 ≤ dt) (i : ℕ) (hi : i < dh.length) :
    (calculate_daily_overtime (dh.getD i 0) dt).2
        ≤ ((calculate_weekly_overtime dh wt dt).getD i (0, 0)).2
      ∧ ((calculate_weekly_overtime dh wt dt).getD i (0, 0)).1
        ≤ round2 (calculate_daily_overtime (dh.getD i 0) dt).1 := by
  unfold calculate_weekly_overtime
  exact weeklyLoop_getD wt dt dh 0 i hi hh hdt

theorem c3_daily_overtime_preserved_witness :
    (∀ h ∈ [(10 : ℚ), 3], 0 ≤ h) ∧ (0 : ℚ) ≤ 8 ∧ 0 < [(10 : ℚ), 3].length ∧
    ((calculate_daily_overtime ([(10 : ℚ), 3].getD 0 0) 8).2
        ≤ ((calculate_weekly_overtime [(10 : ℚ), 3] 40 8).getD 0 (0, 0)).2
      ∧ ((calculate_weekly_overtime [(10 : ℚ), 3] 40 8).getD 0 (0, 0)).1
        ≤ round2 (calculate_daily_overtime ([(10 : ℚ), 3].getD 0 0) 8).1) :=
  ⟨by decide, by decide, by decide,
   c3_daily_overtime_preserved [(10 : ℚ), 3] 40 8 (by decide) (by decide) 0 (by decide)⟩

/-! ### Claim C10 -/

/-- C10: the running cumulative total of unrounded regular-hour allocations
inside `calculate_weekly_overtime` (the first components of `weeklyAllocs`)
stays at or below the weekly threshold after every prefix of days, so the
total unrounded regular hours never exceed weeklyThreshold; and the function
output is exactly the 2-decimal rounding of those allocations. -/
theorem c10_cumulative_regular_capped (dh : List ℚ) (wt dt : ℚ)
    (hwt : 0 ≤ wt) (hdt : 0 ≤ dt) (hh : ∀ h ∈ dh, 0 ≤ h) :
    (∀ n : ℕ, ((weeklyAllocs wt dt 0 (dh.take n)).map Prod.fst).sum ≤ wt) ∧
    ((weeklyAllocs wt dt 0 dh).map Prod.fst).sum ≤ wt ∧
    calculate_weekly_overtime dh wt dt
      = (weeklyAllocs wt dt 0 dh).map (fun a => (round2 a.1, round2 a.2)) := by
  refine ⟨fun n => ?_, ?_, ?_⟩
  · have := weeklyAllocs_sum_le wt dt (dh.take n) 0 hwt
    linarith
  · have := weeklyAllocs_sum_le wt dt dh 0 hwt
    linarith
  · unfold calculate_weekly_overtime
    exact weeklyLoop_eq_map wt dt dh 0

theorem c10_cumulative_regular_capped_witness :
    (0 : ℚ) ≤ 40 ∧ (0 : ℚ) ≤ 8 ∧ (∀ h ∈ [(10 : ℚ), 10, 10, 10, 10], 0 ≤ h) ∧
    ((∀ n : ℕ,
        ((weeklyAllocs 40 8 0 ([(10 : ℚ), 10, 10, 10, 10].take n)).map Prod.fst).sum ≤ 40) ∧
     ((weeklyAllocs 40 8 0 [(10 : ℚ), 10, 10, 10, 10]).map Prod.fst).sum ≤ 40 ∧
     calculate_weekly_overtime [(10 : ℚ), 10, 10, 10, 10] 40 8
       = (weeklyAllocs 40 8 0 [(10 : ℚ), 10, 10, 10, 10]).map
           (fun a => (round2 a.1, round2 a.2))) :=
  ⟨by decide, by decide, by decide,
   c10_cumulative_regular_capped [(10 : ℚ), 10, 10, 10, 10] 40 8
     (by decide) (by decide) (by decide)⟩

/-! ### Claim C4 -/

/-- C4: `get_biweekly_dates d` returns (start, start + 13) where start is
the Monday of d's week (`week_start d` is a Monday, at most 6 days before d)
when `weeksDiff = fdiv (thatMonday - anchor) 7` is even (floor division,
sign-correct before the anchor 2025-01-06), and that Monday minus 7 days
when it is odd; with the three pinned examples and a pre-anchor check. -/
theorem c4_biweekly_dates :
    (∀ d : ℤ,
        pyWeekday (week_start d) = 0 ∧ week_start d ≤ d ∧ d < week_start d + 7 ∧
        get_biweekly_dates d =
          (if Int.fdiv (week_start d - anchorMonday) 7 % 2 = 0
            then week_start d else week_start d - 7,
           (if Int.fdiv (week_start d - anchorMonday) 7 % 2 = 0
            then week_start d else week_start d - 7) + 13)) ∧
    get_biweekly_dates (daysFromCivil 2025 1 6)
      = (daysFromCivil 2025 1 6, daysFromCivil 2025 1 19) ∧
    get_biweekly_dates (daysFromCivil 2025 1 13)
      = (daysFromCivil 2025 1 6, daysFromCivil 2025 1 19) ∧
    get_biweekly_dates (daysFromCivil 2025 1 20)
      = (daysFromCivil 2025 1 20, daysFromCivil 2025 2 2) ∧
    get_biweekly_dates (daysFromCivil 2024 12 30)
      = (daysFromCivil 2024 12 23, daysFromCivil 2025 1 5) := by
  refine ⟨fun d => ⟨?_, ?_, ?_, rfl⟩, by decide, by decide, by decide, by decide⟩
  · simp only [week_start, pyWeekday]
    omega
  · simp only [week_start, pyWeekday]
    omega
  · simp only [week_start, pyWeekday]
    omega

/-! ### Claim C2 -/

@[simp] theorem exceptOkBind {α β : Type} (x : α) (f : α → Except PayrollError β) :
    (Except.ok x >>= f) = f x := rfl

@[simp] theorem exceptErrorBind {α β : Type} (e : PayrollError)
    (f : α → Except PayrollError β) :
    ((Except.error e : Except PayrollError α) >>= f) = .error e := rfl

@[simp] theorem exceptPureEq {α : Type} (x : α) :
    (pure x : Except PayrollError α) = .ok x := rfl

theorem parse_time_ne_empty {a : String} {v : ℤ × ℤ} (h : parse_time a = .ok v) :
    a.data ≠ [] := by
  intro hnil
  cases a with
  | mk data =>
    simp only at hnil
    subst hnil
    rw [show parse_time ⟨[]⟩ = Except.error (.invalidTimeFormat "") from rfl] at h
    cases h

theorem truthy_of_parse {a : String} {v : ℤ × ℤ} (h : parse_time a = .ok v) :
    truthy (some a) = true := by
  have hne := parse_time_ne_empty h
  unfold truthy
  cases hd : a.data with
  | nil => exact absurd hd hne
  | cons c t => simp [hd]

theorem truthy_of_ne_nil {a : String} (h : a.data ≠ []) : truthy (some a) = true := by
  unfold truthy
  cases hd : a.data with
  | nil => exact absurd hd h
  | cons c t => simp [hd]

/-- C2: for parsed start and end times, `calculate_shift_hours` returns
round(max(0, D) / 60, 2) where D is end minus start in minutes after adding
1440 when the end is numerically earlier (overnight wraparound), minus the
lunch duration exactly when both lunch bounds are given and the duration is
strictly positive; a missing lunch bound deducts nothing; and the two pinned
examples hold: 22:00-06:00 is 8.0 and 10:00-18:00 with lunch 15:00-16:00 is
7.0. -/
theorem c2_shift_hours :
    (∀ (stime etime : String) (sh sm eh em : ℤ),
      parse_time stime = .ok (sh, sm) → parse_time etime = .ok (eh, em) →
      (calculate_shift_hours stime etime none none
          = .ok (round2 (((max 0 ((if eh * 60 + em < sh * 60 + sm
              then eh * 60 + em + 1440 else eh * 60 + em) - (sh * 60 + sm)) : ℤ) : ℚ) / 60))) ∧
      (∀ a : String, calculate_shift_hours stime etime (some a) none
          = .ok (round2 (((max 0 ((if eh * 60 + em < sh * 60 + sm
              then eh * 60 + em + 1440 else eh * 60 + em) - (sh * 60 + sm)) : ℤ) : ℚ) / 60))) ∧
      (∀ b : String, calculate_shift_hours stime etime none (some b)
          = .ok (round2 (((max 0 ((if eh * 60 + em < sh * 60 + sm
              then eh * 60 + em + 1440 else eh * 60 + em) - (sh * 60 + sm)) : ℤ) : ℚ) / 60))) ∧
      (∀ (a b : String) (lsh lsm leh lem : ℤ),
        parse_time a = .ok (lsh, lsm) → parse_time b = .ok (leh, lem) →
        calculate_shift_hours stime etime (some a) (some b)
          = .ok (round2 (((max 0 (((if eh * 60 + em < sh * 60 + sm
                then eh * 60 + em + 1440 else eh * 60 + em) - (sh * 60 + sm))
              - (if 0 < (leh * 60 + lem) - (lsh * 60 + lsm)
                 then (leh * 60 + lem) - (lsh * 60 + lsm) else 0)) : ℤ) : ℚ) / 60)))) ∧
    calculate_shift_hours "22:00" "06:00" none none = .ok 8 ∧
    calculate_shift_hours "10:00" "18:00" (some "15:00") (some "16:00") = .ok 7 := by
  refine ⟨fun stime etime sh sm eh em hs he => ?_, by decide, by decide⟩
  refine ⟨?_, fun a => ?_, fun b => ?_, fun a b lsh lsm leh lem hla hlb => ?_⟩
  · unfold calculate_shift_hours
    rw [hs, he]
    simp [truthy]
  · unfold calculate_shift_hours
    rw [hs, he]
    simp [truthy]
  · unfold calculate_shift_hours
    rw [hs, he]
    simp [truthy]
  · unfold calculate_shift_hours
    rw [hs, he]
    simp only [exceptOkBind, truthy_of_parse hla, truthy_of_parse hlb, Bool.and_self,
      if_true, Option.getD_some]
    rw [hla, hlb]
    simp
    split_ifs <;> simp

/-! ### Evaluating calculate_employee_payroll -/

theorem employee_payroll_none {db : DB} {eid : ℕ} {sd ed : ℤ} {wt dt mult : ℚ}
    (h : get_employee db eid = none) :
    calculate_employee_payroll db eid sd ed wt dt mult
      = .error (.employeeNotFound eid) := by
  unfold calculate_employee_payroll
  rw [h]

theorem employee_payroll_ok {db : DB} {eid : ℕ} {sd ed : ℤ} {wt dt mult : ℚ}
    {emp : Employee} {m : List (ℤ × ℚ)}
    (he : get_employee db eid = some emp)
    (hm : shiftHoursList (get_shifts_for_employee db eid sd ed) = .ok m) :
    calculate_employee_payroll db eid sd ed wt dt mult
      = .ok (payroll_of emp eid m sd ed wt dt mult) := by
  unfold calculate_employee_payroll
  rw [he]
  dsimp only
  rw [hm]
  rfl

theorem employee_payroll_propagates {db : DB} {eid : ℕ} {sd ed : ℤ} {wt dt mult : ℚ}
    {emp : Employee} {err : PayrollError}
    (he : get_employee db eid = some emp)
    (hm : shiftHoursList (get_shifts_for_employee db eid sd ed) = .error err) :
    calculate_employee_payroll db eid sd ed wt dt mult = .error err := by
  unfold calculate_employee_payroll
  rw [he]
  dsimp only
  rw [hm]
  rfl

theorem weeklyAllocs_length (wt dt : ℚ) :
    ∀ (dh : List ℚ) (cum : ℚ), (weeklyAllocs wt dt cum dh).length = dh.length
  | [], _ => rfl
  | _ :: rest, cum => by
    simp only [weeklyAllocs, List.length_cons]
    rw [weeklyAllocs_length wt dt rest]

theorem weekly_length (dh : List ℚ) (wt dt : ℚ) :
    (calculate_weekly_overtime dh wt dt).length = dh.length := by
  unfold calculate_weekly_overtime
  exact weeklyLoop_length wt dt dh 0

theorem daily_breakdown_dates (m : List (ℤ × ℚ)) (sd ed : ℤ) (wt dt : ℚ) :
    (daily_breakdown_of m sd ed wt dt).map (fun dh => dh.date) = dateRange sd ed := by
  unfold daily_breakdown_of
  rw [List.map_map]
  have hlen : (dateRange sd ed).length
      ≤ (calculate_weekly_overtime (daily_hours_list_of m sd ed) wt dt).length := by
    rw [weekly_length]
    simp [daily_hours_list_of]
  simpa using List.map_fst_zip _ _ hlen

theorem daily_breakdown_pairs (m : List (ℤ × ℚ)) (sd ed : ℤ) (wt dt : ℚ) :
    (daily_breakdown_of m sd ed wt dt).map
        (fun dh => (dh.regular_hours, dh.overtime_hours))
      = calculate_weekly_overtime (daily_hours_list_of m sd ed) wt dt := by
  unfold daily_breakdown_of
  rw [List.map_map]
  have hlen : (calculate_weekly_overtime (daily_hours_list_of m sd ed) wt dt).length
      ≤ (dateRange sd ed).length := by
    rw [weekly_length]
    simp [daily_hours_list_of]
  have := List.map_snd_zip (dateRange sd ed)
    (calculate_weekly_overtime (daily_hours_list_of m sd ed) wt dt) hlen
  simpa using this

theorem daily_breakdown_regulars (m : List (ℤ × ℚ)) (sd ed : ℤ) (wt dt : ℚ) :
    (daily_breakdown_of m sd ed wt dt).map (fun dh => dh.regular_hours)
      = (calculate_weekly_overtime (daily_hours_list_of m sd ed) wt dt).map Prod.fst := by
  have h2 := daily_breakdown_pairs m sd ed wt dt
  calc (daily_breakdown_of m sd ed wt dt).map (fun dh => dh.regular_hours)
      = ((daily_breakdown_of m sd ed wt dt).map
          (fun dh => (dh.regular_hours, dh.overtime_hours))).map Prod.fst := by
        rw [List.map_map]; rfl
    _ = (calculate_weekly_overtime (daily_hours_list_of m sd ed) wt dt).map Prod.fst := by
        rw [h2]

theorem daily_breakdown_overtimes (m : List (ℤ × ℚ)) (sd ed : ℤ) (wt dt : ℚ) :
    (daily_breakdown_of m sd ed wt dt).map (fun dh => dh.overtime_hours)
      = (calculate_weekly_overtime (daily_hours_list_of m sd ed) wt dt).map Prod.snd := by
  have h2 := daily_breakdown_pairs m sd ed wt dt
  calc (daily_breakdown_of m sd ed wt dt).map (fun dh => dh.overtime_hours)
      = ((daily_breakdown_of m sd ed wt dt).map
          (fun dh => (dh.regular_hours, dh.overtime_hours))).map Prod.snd := by
        rw [List.map_map]; rfl
    _ = (calculate_weekly_overtime (daily_hours_list_of m sd ed) wt dt).map Prod.snd := by
        rw [h2]

theorem sum_round2_le : ∀ l : List ℚ, (l.map round2).sum ≤ l.sum + l.length * (1/200)
  | [] => by simp
  | x :: rest => by
    simp only [List.map_cons, List.sum_cons, List.length_cons]
    have h1 := round2_le x
    have h2 := sum_round2_le rest
    push_cast
    ring_nf
    ring_nf at h2
    linarith

theorem weekly_fst_as_round2 (dh : List ℚ) (wt dt : ℚ) :
    (calculate_weekly_overtime dh wt dt).map Prod.fst
      = ((weeklyAllocs wt dt 0 dh).map Prod.fst).map round2 := by
  unfold calculate_weekly_overtime
  rw [weeklyLoop_eq_map wt dt dh 0, List.map_map, List.map_map]
  rfl

theorem weekly_regular_sum_le (dh : List ℚ) (wt dt : ℚ) (hwt : 0 ≤ wt) :
    ((calculate_weekly_overtime dh wt dt).map Prod.fst).sum
      ≤ wt + dh.length * (1/200) := by
  rw [weekly_fst_as_round2]
  have h1 := sum_round2_le ((weeklyAllocs wt dt 0 dh).map Prod.fst)
  have h2 := weeklyAllocs_sum_le wt dt dh 0 hwt
  have h3 : ((weeklyAllocs wt dt 0 dh).map Prod.fst).length = dh.length := by
    rw [List.length_map]
    exact weeklyAllocs_length wt dt dh 0
  rw [h3] at h1
  linarith

/-! ### Claim C5 -/

/-- C5 (counterexample): with weeklyThreshold 4.75 and dailyThreshold 2.375,
two 2.5-hour shifts give daily allocations of 2.375 regular each (cumulative
4.75, never above the threshold), but each is rounded up to 2.38 in the
output, so the sum of regular hours in the result is 4.76 > 4.75: the sum of
the (rounded) regular hours CAN exceed the weekly threshold. -/
theorem c5_regular_sum_counterexample :
    ((calculate_employee_payroll c5db 1 0 1 (19/4) (19/8) (3/2)).toOption.map
        (fun p => (p.daily_breakdown.map (fun dh => dh.regular_hours)).sum))
      = some (119/25) ∧
    ¬ ((119/25 : ℚ) ≤ 19/4) := by
  constructor
  · decide
  · decide

/-- C5 (amended): `calculate_employee_payroll` builds the full chronological
date list of the range with 0.0 for dates without a shift, and runs
`calculate_weekly_overtime` exactly once over that entire list (the per-day
pairs of the result are exactly its output on the full-range list, so the
weekly threshold is never reset at 7-day boundaries); for weeklyThreshold
at least 0, the sum of regular hours in the result exceeds weeklyThreshold
by at most 0.005 per day of the range (the slack being due only to the
2-decimal rounding of each day's figure). -/
theorem c5_single_pass_no_weekly_reset (db : DB) (eid : ℕ) (sd ed : ℤ)
    (wt dt mult : ℚ) (m : List (ℤ × ℚ)) (p : EmployeePayroll)
    (hwt : 0 ≤ wt)
    (hm : shiftHoursList (get_shifts_for_employee db eid sd ed) = .ok m)
    (hp : calculate_employee_payroll db eid sd ed wt dt mult = .ok p) :
    p.daily_breakdown.map (fun dh => dh.date) = dateRange sd ed ∧
    p.daily_breakdown.map (fun dh => (dh.regular_hours, dh.overtime_hours))
      = calculate_weekly_overtime ((dateRange sd ed).map (mapGet m)) wt dt ∧
    (p.daily_breakdown.map (fun dh => dh.regular_hours)).sum
      ≤ wt + (dateRange sd ed).length * (1/200) := by
  cases he : get_employee db eid with
  | none =>
    rw [employee_payroll_none he] at hp
    cases hp
  | some emp =>
    rw [employee_payroll_ok he hm] at hp
    injection hp with hpe
    subst hpe
    refine ⟨daily_breakdown_dates m sd ed wt dt, daily_breakdown_pairs m sd ed wt dt, ?_⟩
    rw [show (payroll_of emp eid m sd ed wt dt mult).daily_breakdown
          = daily_breakdown_of m sd ed wt dt from rfl,
        daily_breakdown_regulars m sd ed wt dt]
    have h := weekly_regular_sum_le (daily_hours_list_of m sd ed) wt dt hwt
    simpa [daily_hours_list_of] using h

theorem c5_single_pass_no_weekly_reset_witness :
    (0 : ℚ) ≤ 19/4 ∧
    shiftHoursList (get_shifts_for_employee c5db 1 0 1) = .ok [(0, 5/2), (1, 5/2)] ∧
    calculate_employee_payroll c5db 1 0 1 (19/4) (19/8) (3/2) = .ok c5payroll ∧
    (c5payroll.daily_breakdown.map (fun dh => dh.date) = dateRange 0 1 ∧
     c5payroll.daily_breakdown.map (fun dh => (dh.regular_hours, dh.overtime_hours))
       = calculate_weekly_overtime ((dateRange 0 1).map (mapGet [(0, 5/2), (1, 5/2)]))
           (19/4) (19/8) ∧
     (c5payroll.daily_breakdown.map (fun dh => dh.regular_hours)).sum
       ≤ 19/4 + (dateRange 0 1).length * (1/200)) :=
  ⟨by decide, by decide, by decide,
   c5_single_pass_no_weekly_reset c5db 1 0 1 (19/4) (19/8) (3/2) [(0, 5/2), (1, 5/2)]
     c5payroll (by decide) (by decide) (by decide)⟩

/-! ### Claim C6 -/

theorem weekly_mem_isCent {dh : List ℚ} {wt dt : ℚ} {q : ℚ × ℚ}
    (hq : q ∈ calculate_weekly_overtime dh wt dt) : IsCent q.1 ∧ IsCent q.2 := by
  unfold calculate_weekly_overtime at hq
  rw [weeklyLoop_eq_map wt dt dh 0] at hq
  obtain ⟨a, _, rfl⟩ := List.mem_map.mp hq
  exact ⟨isCent_round2 _, isCent_round2 _⟩

theorem breakdown_totals_fixed (m : List (ℤ × ℚ)) (sd ed : ℤ) (wt dt : ℚ) :
    round2 (((daily_breakdown_of m sd ed wt dt).map (fun dh => dh.regular_hours)).sum)
      = ((daily_breakdown_of m sd ed wt dt).map (fun dh => dh.regular_hours)).sum ∧
    round2 (((daily_breakdown_of m sd ed wt dt).map (fun dh => dh.overtime_hours)).sum)
      = ((daily_breakdown_of m sd ed wt dt).map (fun dh => dh.overtime_hours)).sum := by
  constructor
  · refine (isCent_sum ?_).round2_eq
    rw [daily_breakdown_regulars]
    intro x hx
    obtain ⟨q, hq, rfl⟩ := List.mem_map.mp hx
    exact (weekly_mem_isCent hq).1
  · refine (isCent_sum ?_).round2_eq
    rw [daily_breakdown_overtimes]
    intro x hx
    obtain ⟨q, hq, rfl⟩ := List.mem_map.mp hx
    exact (weekly_mem_isCent hq).2

/-- C6 (counterexample): an employee at rate 15.375 with 10 regular and 2
overtime hours (multiplier 1.5) gets overtime_pay round(46.125, 2) = 46.12,
not 46.13, and total_pay 199.87, not 199.88: Python's round is bankers
rounding, and 46.125 (exactly representable in binary) ties down to the even
cent. -/
theorem c6_pay_rounding_counterexample :
    ((calculate_employee_payroll c6db 1 0 0 40 10 (3/2)).toOption.map
        (fun p => (p.total_regular_hours, p.total_overtime_hours,
                   p.overtime_pay, p.total_pay)))
      = some (10, 2, 1153/25, 19987/100) ∧
    (1153/25 : ℚ) ≠ 4613/100 ∧ (19987/100 : ℚ) ≠ 19988/100 := by
  refine ⟨by decide, by decide, by decide⟩

/-- C6 (amended): `calculate_employee_payroll` computes
regular_pay = round(R × r, 2), overtime_pay = round(V × r × m, 2) and
total_pay = round(regular_pay + overtime_pay, 2) where R, V, r are the
result's total regular hours, total overtime hours and hourly rate; for
rate 15.375 with 10 regular and 2 overtime hours at multiplier 1.5 this
yields regular_pay = 153.75, overtime_pay = 46.12 (bankers rounding of
46.125) and total_pay = 199.87. -/
theorem c6_pay_rounding (db : DB) (eid : ℕ) (sd ed : ℤ) (wt dt mult : ℚ)
    (p : EmployeePayroll)
    (hp : calculate_employee_payroll db eid sd ed wt dt mult = .ok p) :
    p.regular_pay = round2 (p.total_regular_hours * p.hourly_rate) ∧
    p.overtime_pay = round2 (p.total_overtime_hours * p.hourly_rate * mult) ∧
    p.total_pay = round2 (p.regular_pay + p.overtime_pay) := by
  cases he : get_employee db eid with
  | none =>
    rw [employee_payroll_none he] at hp
    cases hp
  | some emp =>
    cases hm : shiftHoursList (get_shifts_for_employee db eid sd ed) with
    | error err =>
      rw [employee_payroll_propagates he hm] at hp
      cases hp
    | ok m =>
      rw [employee_payroll_ok he hm] at hp
      injection hp with hpe
      subst hpe
      have hfix := breakdown_totals_fixed m sd ed wt dt
      refine ⟨?_, ?_, rfl⟩
      · show round2 (((daily_breakdown_of m sd ed wt dt).map
            (fun dh => dh.regular_hours)).sum * emp.hourly_rate) = _
        rw [show (payroll_of emp eid m sd ed wt dt mult).total_regular_hours
              = round2 (((daily_breakdown_of m sd ed wt dt).map
                  (fun dh => dh.regular_hours)).sum) from rfl, hfix.1]
        rfl
      · show round2 (((daily_breakdown_of m sd ed wt dt).map
            (fun dh => dh.overtime_hours)).sum * emp.hourly_rate * mult) = _
        rw [show (payroll_of emp eid m sd ed wt dt mult).total_overtime_hours
              = round2 (((daily_breakdown_of m sd ed wt dt).map
                  (fun dh => dh.overtime_hours)).sum) from rfl, hfix.2]
        rfl

theorem c6_pay_rounding_witness :
    calculate_employee_payroll c6db 1 0 0 40 10 (3/2) = .ok c6payroll ∧
    (c6payroll.regular_pay = round2 (c6payroll.total_regular_hours * c6payroll.hourly_rate) ∧
     c6payroll.overtime_pay
       = round2 (c6payroll.total_overtime_hours * c6payroll.hourly_rate * (3/2)) ∧
     c6payroll.total_pay = round2 (c6payroll.regular_pay + c6payroll.overtime_pay)) :=
  ⟨by decide, c6_pay_rounding c6db 1 0 0 40 10 (3/2) c6payroll (by decide)⟩

theorem c2_shift_hours_witness :
    calculate_shift_hours "07:30" "12:00" none none
        = .ok (round2 (((max 0 ((if (12 * 60 + 0 : ℤ) < 7 * 60 + 30
            then 12 * 60 + 0 + 1440 else 12 * 60 + 0) - (7 * 60 + 30)) : ℤ) : ℚ) / 60)) ∧
    calculate_shift_hours "09:00" "17:00" (some "12:00") (some "12:30")
        = .ok (round2 (((max 0 (((if (17 * 60 + 0 : ℤ) < 9 * 60 + 0
              then 17 * 60 + 0 + 1440 else 17 * 60 + 0) - (9 * 60 + 0))
            - (if (0 : ℤ) < (12 * 60 + 30) - (12 * 60 + 0)
               then (12 * 60 + 30) - (12 * 60 + 0) else 0)) : ℤ) : ℚ) / 60)) :=
  ⟨(c2_shift_hours.1 "07:30" "12:00" 7 30 12 0 (by decide) (by decide)).1,
   (c2_shift_hours.1 "09:00" "17:00" 9 0 17 0 (by decide) (by decide)).2.2.2
     "12:00" "12:30" 12 0 12 30 (by decide) (by decide)⟩

/-! ### Claim C8 -/

theorem parse_time_error {s : String} {err : PayrollError}
    (h : parse_time s = .error err) : ∃ t, err = .invalidTimeFormat t := by
  unfold parse_time at h
  dsimp only at h
  split at h
  · injection h with h2
    exact ⟨_, h2.symm⟩
  · split at h
    · split at h
      · injection h with h2
        exact ⟨_, h2.symm⟩
      · cases h
    · cases h

theorem calculate_shift_hours_error {st et : String} {ls le2 : Option String}
    {err : PayrollError}
    (h : calculate_shift_hours st et ls le2 = .error err) :
    ∃ t, err = .invalidTimeFormat t := by
  unfold calculate_shift_hours at h
  cases hps : parse_time st with
  | error e =>
    rw [hps] at h
    simp only [exceptErrorBind] at h
    injection h with h2
    obtain ⟨t, ht⟩ := parse_time_error hps
    exact ⟨t, by rw [← h2, ht]⟩
  | ok sv =>
    rw [hps] at h
    simp only [exceptOkBind] at h
    cases hpe : parse_time et with
    | error e =>
      rw [hpe] at h
      simp only [exceptErrorBind] at h
      injection h with h2
      obtain ⟨t, ht⟩ := parse_time_error hpe
      exact ⟨t, by rw [← h2, ht]⟩
    | ok ev =>
      rw [hpe] at h
      simp only [exceptOkBind] at h
      by_cases hc : (truthy ls && truthy le2) = true
      · rw [if_pos hc] at h
        cases hpl : parse_time (ls.getD "") with
        | error e =>
          rw [hpl] at h
          simp only [exceptErrorBind] at h
          injection h with h2
          obtain ⟨t, ht⟩ := parse_time_error hpl
          exact ⟨t, by rw [← h2, ht]⟩
        | ok lv =>
          rw [hpl] at h
          simp only [exceptOkBind] at h
          cases hpl2 : parse_time (le2.getD "") with
          | error e =>
            rw [hpl2] at h
            simp only [exceptErrorBind] at h
            injection h with h2
            obtain ⟨t, ht⟩ := parse_time_error hpl2
            exact ⟨t, by rw [← h2, ht]⟩
          | ok lv2 =>
            rw [hpl2] at h
            simp only [exceptOkBind, exceptPureEq] at h
            cases h
      · rw [if_neg hc] at h
        simp only [exceptOkBind, exceptPureEq] at h
        cases h

theorem shiftHoursList_error : ∀ {l : List Shift} {err : PayrollError},
    shiftHoursList l = .error err → ∃ t, err = .invalidTimeFormat t := by
  intro l
  induction l with
  | nil => intro err h; cases h
  | cons s rest ih =>
    intro err h
    unfold shiftHoursList at h
    cases hcs : calculate_shift_hours s.start_time s.end_time s.lunch_start s.lunch_end with
    | error e =>
      rw [hcs] at h
      simp only [exceptErrorBind] at h
      injection h with h2
      obtain ⟨t, ht⟩ := calculate_shift_hours_error hcs
      exact ⟨t, by rw [← h2, ht]⟩
    | ok v =>
      rw [hcs] at h
      simp only [exceptOkBind] at h
      cases hr : shiftHoursList rest with
      | error e =>
        rw [hr] at h
        simp only [exceptErrorBind] at h
        injection h with h2
        obtain ⟨t, ht⟩ := ih hr
        exact ⟨t, by rw [← h2, ht]⟩
      | ok vs =>
        rw [hr] at h
        simp only [exceptOkBind] at h
        cases h

theorem find_by_id_rel {l1 l2 : List Employee}
    (hf : List.Forall₂ (fun a b : Employee =>
      a.id = b.id ∧ a.name = b.name ∧ a.hourly_rate = b.hourly_rate) l1 l2)
    (eid : ℕ) :
    (l1.find? (fun e => e.id == eid) = none ∧ l2.find? (fun e => e.id == eid) = none) ∨
    (∃ a b, l1.find? (fun e => e.id == eid) = some a ∧
      l2.find? (fun e => e.id == eid) = some b ∧
      a.id = b.id ∧ a.name = b.name ∧ a.hourly_rate = b.hourly_rate) := by
  induction hf with
  | nil => left; exact ⟨rfl, rfl⟩
  | @cons a b as bs hab htail ih =>
    by_cases hid : (a.id == eid) = true
    · right
      have hid2 : (b.id == eid) = true := by rw [← hab.1]; exact hid
      refine ⟨a, b, ?_, ?_, hab⟩
      · simp [List.find?_cons, hid]
      · simp [List.find?_cons, hid2]
    · have hid2 : ¬ (b.id == eid) = true := by rw [← hab.1]; exact hid
      rcases ih with ⟨h1, h2⟩ | ⟨x, y, h1, h2, h3⟩
      · left
        constructor
        · simp [List.find?_cons, hid, h1]
        · simp [List.find?_cons, hid2, h2]
      · right
        refine ⟨x, y, ?_, ?_, h3⟩
        · simp [List.find?_cons, hid, h1]
        · simp [List.find?_cons, hid2, h2]

/-- C8: an employee id that does not resolve makes
`calculate_employee_payroll` fail with the EmployeeNotFound error (never an
ok record); a resolving id never produces that error; and the computation
reads only the shifts and the employee's name and hourly_rate, so it is
identical on stores that differ only in is_active flags: the active flag is
irrelevant to a specific employee's payroll. -/
theorem c8_employee_not_found (db db2 : DB) (eid : ℕ) (sd ed : ℤ) (wt dt mult : ℚ) :
    (get_employee db eid = none →
      calculate_employee_payroll db eid sd ed wt dt mult
        = .error (.employeeNotFound eid)) ∧
    (∀ emp : Employee, get_employee db eid = some emp →
      ∀ k : ℕ, calculate_employee_payroll db eid sd ed wt dt mult
        ≠ .error (.employeeNotFound k)) ∧
    (db.shifts = db2.shifts →
      List.Forall₂ (fun a b : Employee =>
        a.id = b.id ∧ a.name = b.name ∧ a.hourly_rate = b.hourly_rate)
        db.employees db2.employees →
      calculate_employee_payroll db eid sd ed wt dt mult
        = calculate_employee_payroll db2 eid sd ed wt dt mult) := by
  refine ⟨employee_payroll_none, ?_, ?_⟩
  · intro emp he k hcontra
    cases hm : shiftHoursList (get_shifts_for_employee db eid sd ed) with
    | error err =>
      rw [employee_payroll_propagates he hm] at hcontra
      injection hcontra with h2
      obtain ⟨t, ht⟩ := shiftHoursList_error hm
      rw [ht] at h2
      cases h2
    | ok m =>
      rw [employee_payroll_ok he hm] at hcontra
      cases hcontra
  · intro hsh hf
    have hshifts : get_shifts_for_employee db eid sd ed
        = get_shifts_for_employee db2 eid sd ed := by
      unfold get_shifts_for_employee
      rw [hsh]
    rcases find_by_id_rel hf eid with ⟨h1, h2⟩ | ⟨a, b, h1, h2, hab⟩
    · rw [employee_payroll_none h1, employee_payroll_none h2]
    · cases hm : shiftHoursList (get_shifts_for_employee db eid sd ed) with
      | error err =>
        rw [employee_payroll_propagates h1 hm,
          employee_payroll_propagates h2 (by rw [← hshifts]; exact hm)]
      | ok m =>
        rw [employee_payroll_ok h1 hm,
          employee_payroll_ok h2 (by rw [← hshifts]; exact hm)]
        have hpe : payroll_of a eid m sd ed wt dt mult
            = payroll_of b eid m sd ed wt dt mult := by
          unfold payroll_of
          rw [hab.2.1, hab.2.2]
        rw [hpe]

theorem c8_employee_not_found_witness :
    calculate_employee_payroll c8db 99 0 0 40 8 (3/2) = .error (.employeeNotFound 99) ∧
    calculate_employee_payroll c8db 1 0 0 40 8 (3/2) ≠ .error (.employeeNotFound 1) ∧
    calculate_employee_payroll c8db 1 0 0 40 8 (3/2)
      = calculate_employee_payroll c8dbFlip 1 0 0 40 8 (3/2) :=
  ⟨(c8_employee_not_found c8db c8db 99 0 0 40 8 (3/2)).1 (by decide),
   (c8_employee_not_found c8db c8db 1 0 0 40 8 (3/2)).2.1
     { id := 1, name := "Ana", hourly_rate := 10, is_active := true } (by decide) 1,
   (c8_employee_not_found c8db c8dbFlip 1 0 0 40 8 (3/2)).2.2 rfl
     (List.Forall₂.cons (by decide) List.Forall₂.nil)⟩

/-! ### Claim C9 -/

/-- C9 (counterexample): "10" is not of the HH:MM 24-hour form, yet
`calculate_shift_hours "10" "18:00"` succeeds with 8.0 instead of failing:
`parse_time` coerces the missing minutes field to 0. -/
theorem c9_parse_time_counterexample :
    isHHMM "10" = false ∧ parse_time "10" = .ok (10, 0) ∧
    calculate_shift_hours "10" "18:00" none none = .ok 8 := by
  refine ⟨by decide, by decide, by decide⟩

/-- C9 (amended): on time strings made of plain printable ASCII without
underscores (the domain where the embedded `int` model is exact), an
InvalidTimeFormat parse failure of any consulted field is propagated
unrecovered out of `calculate_shift_hours`: a failing start time, a failing
end time, or, when both lunch bounds are given and non-empty, a failing
lunch bound (in evaluation order).  But not every non-HH:MM string fails:
a colonless integer string is accepted with the minutes field defaulted to
0, fields past the second colon are ignored, and out-of-range field values
are accepted as-is. -/
theorem c9_parse_time_amended :
    (∀ (stime etime : String) (ls le2 : Option String) (err : PayrollError),
      plainAscii stime.data = true →
      parse_time stime = .error err →
      calculate_shift_hours stime etime ls le2 = .error err) ∧
    (∀ (stime etime : String) (ls le2 : Option String) (sv : ℤ × ℤ) (err : PayrollError),
      plainAscii etime.data = true →
      parse_time stime = .ok sv → parse_time etime = .error err →
      calculate_shift_hours stime etime ls le2 = .error err) ∧
    (∀ (stime etime a b : String) (sv ev : ℤ × ℤ) (err : PayrollError),
      plainAscii a.data = true →
      parse_time stime = .ok sv → parse_time etime = .ok ev →
      a.data ≠ [] → b.data ≠ [] →
      parse_time a = .error err →
      calculate_shift_hours stime etime (some a) (some b) = .error err) ∧
    (∀ (stime etime a b : String) (sv ev av : ℤ × ℤ) (err : PayrollError),
      plainAscii b.data = true →
      parse_time stime = .ok sv → parse_time etime = .ok ev →
      a.data ≠ [] → b.data ≠ [] →
      parse_time a = .ok av → parse_time b = .error err →
      calculate_shift_hours stime etime (some a) (some b) = .error err) ∧
    (∀ (s : String) (n : ℤ), splitOnColon s.data = [s.data] →
      pyInt s.data = some n → parse_time s = .ok (n, 0)) ∧
    (∀ (s : String) (p1 p2 : List Char) (rest : List (List Char)) (hh mm : ℤ),
      splitOnColon s.data = p1 :: p2 :: rest →
      pyInt p1 = some hh → pyInt p2 = some mm → parse_time s = .ok (hh, mm)) ∧
    (parse_time "25:99" = .ok (25, 99) ∧ isHHMM "25:99" = false ∧
     parse_time "1:2:3" = .ok (1, 2) ∧ isHHMM "1:2:3" = false ∧
     calculate_shift_hours "09:00" "33:00" none none = .ok 24) := by
  refine ⟨?_, ?_, ?_, ?_, ?_, ?_, by decide⟩
  · intro stime etime ls le2 err _ h
    unfold calculate_shift_hours
    rw [h]
    rfl
  · intro stime etime ls le2 sv err _ hs he
    unfold calculate_shift_hours
    rw [hs]
    simp only [exceptOkBind]
    rw [he]
    rfl
  · intro stime etime a b sv ev err _ hs he ha hb hpa
    unfold calculate_shift_hours
    rw [hs]
    simp only [exceptOkBind]
    rw [he]
    simp only [exceptOkBind]
    rw [truthy_of_ne_nil ha, truthy_of_ne_nil hb]
    simp only [Bool.and_self, if_true, Option.getD_some]
    rw [hpa]
    rfl
  · intro stime etime a b sv ev av err _ hs he ha hb hpa hpb
    unfold calculate_shift_hours
    rw [hs]
    simp only [exceptOkBind]
    rw [he]
    simp only [exceptOkBind]
    rw [truthy_of_ne_nil ha, truthy_of_ne_nil hb]
    simp only [Bool.and_self, if_true, Option.getD_some]
    rw [hpa]
    simp only [exceptOkBind]
    rw [hpb]
    rfl
  · intro s n hsplit hpy
    unfold parse_time
    rw [hsplit]
    simp only [List.headD_cons]
    rw [hpy]
    simp
  · intro s p1 p2 rest hh mm hsplit h1 h2
    unfold parse_time
    rw [hsplit]
    simp only [List.headD_cons]
    rw [h1]
    dsimp only
    rw [if_pos (by simp)]
    simp only [List.getD_cons_succ, List.getD_cons_zero]
    rw [h2]

theorem c9_parse_time_amended_witness :
    calculate_shift_hours "ab:00" "18:00" none none
        = .error (.invalidTimeFormat "ab") ∧
    calculate_shift_hours "10:00" "xy" none none
        = .error (.invalidTimeFormat "xy") ∧
    calculate_shift_hours "10:00" "18:00" (some "zz") (some "12:00")
        = .error (.invalidTimeFormat "zz") ∧
    calculate_shift_hours "10:00" "18:00" (some "12:00") (some "qq")
        = .error (.invalidTimeFormat "qq") ∧
    parse_time "10" = .ok (10, 0) ∧
    parse_time "1:2:3" = .ok (1, 2) :=
  ⟨c9_parse_time_amended.1 "ab:00" "18:00" none none (.invalidTimeFormat "ab")
     (by decide) (by decide),
   c9_parse_time_amended.2.1 "10:00" "xy" none none (10, 0) (.invalidTimeFormat "xy")
     (by decide) (by decide) (by decide),
   c9_parse_time_amended.2.2.1 "10:00" "18:00" "zz" "12:00" (10, 0) (18, 0)
     (.invalidTimeFormat "zz") (by decide) (by decide) (by decide) (by decide)
     (by decide) (by decide),
   c9_parse_time_amended.2.2.2.1 "10:00" "18:00" "12:00" "qq" (10, 0) (18, 0) (12, 0)
     (.invalidTimeFormat "qq") (by decide) (by decide) (by decide) (by decide)
     (by decide) (by decide) (by decide),
   c9_parse_time_amended.2.2.2.2.1 "10" 10 (by decide) (by decide),
   c9_parse_time_amended.2.2.2.2.2.1 "1:2:3" [Char.ofNat 49] [Char.ofNat 50]
     [[Char.ofNat 51]] 1 2 (by decide) (by decide) (by decide)⟩

/-! ### Claim C7: supporting lemmas -/

theorem charListLe_total : ∀ a b : List Char, charListLe a b = true ∨ charListLe b a = true
  | [], _ => Or.inl rfl
  | _ :: _, [] => Or.inr rfl
  | a :: as, b :: bs => by
    rcases lt_trichotomy a b with h | h | h
    · left
      simp [charListLe, h]
    · subst h
      rcases charListLe_total as bs with ih | ih
      · left
        simp [charListLe, lt_irrefl, ih]
      · right
        simp [charListLe, lt_irrefl, ih]
    · right
      simp [charListLe, h]

theorem charListLe_trans : ∀ a b c : List Char,
    charListLe a b = true → charListLe b c = true → charListLe a c = true
  | [], _, _, _, _ => rfl
  | _ :: _, [], _, h1, _ => by simp [charListLe] at h1
  | _ :: _, _ :: _, [], _, h2 => by simp [charListLe] at h2
  | a :: as, b :: bs, c :: cs, h1, h2 => by
    by_cases hab : a < b
    · by_cases hbc : b < c
      · simp [charListLe, lt_trans hab hbc]
      · by_cases hcb : c < b
        · simp [charListLe, hbc, hcb] at h2
        · have hbceq : b = c := le_antisymm (not_lt.mp hcb) (not_lt.mp hbc)
          subst hbceq
          simp [charListLe, hab]
    · by_cases hba : b < a
      · simp [charListLe, hab, hba] at h1
      · have habeq : a = b := le_antisymm (not_lt.mp hba) (not_lt.mp hab)
        subst habeq
        simp only [charListLe, lt_irrefl, if_false] at h1
        by_cases hac : a < c
        · simp [charListLe, hac]
        · by_cases hca : c < a
          · simp [charListLe, hac, hca] at h2
          · have haceq : a = c := le_antisymm (not_lt.mp hca) (not_lt.mp hac)
            subst haceq
            simp only [charListLe, lt_irrefl, if_false] at h2 ⊢
            exact charListLe_trans as bs cs h1 h2

theorem reportPayrolls_ok_forall {db : DB} {sd ed : ℤ} {wt dt mult : ℚ} :
    ∀ {es : List Employee} {ps : List EmployeePayroll},
      reportPayrolls db sd ed wt dt mult es = .ok ps →
      List.Forall₂ (fun e p =>
        calculate_employee_payroll db e.id sd ed wt dt mult = .ok p) es ps := by
  intro es
  induction es with
  | nil =>
    intro ps h
    unfold reportPayrolls at h
    injection h with h2
    subst h2
    exact List.Forall₂.nil
  | cons e rest ih =>
    intro ps h
    unfold reportPayrolls at h
    cases hp : calculate_employee_payroll db e.id sd ed wt dt mult with
    | error err =>
      rw [hp] at h
      simp only [exceptErrorBind] at h
      cases h
    | ok p =>
      rw [hp] at h
      simp only [exceptOkBind] at h
      cases hr : reportPayrolls db sd ed wt dt mult rest with
      | error err =>
        rw [hr] at h
        simp only [exceptErrorBind] at h
        cases h
      | ok pr =>
        rw [hr] at h
        simp only [exceptOkBind] at h
        injection h with h2
        subst h2
        exact List.Forall₂.cons hp (ih hr)

theorem get_employee_of_mem :
    ∀ {l : List Employee} {e : Employee},
      (l.map (fun x => x.id)).Nodup → e ∈ l →
      l.find? (fun x => x.id == e.id) = some e := by
  intro l
  induction l with
  | nil => intro e _ hmem; cases hmem
  | cons a rest ih =>
    intro e hnd hmem
    rw [List.map_cons, List.nodup_cons] at hnd
    rcases List.mem_cons.mp hmem with rfl | hmem2
    · simp [List.find?_cons]
    · by_cases hae : (a.id == e.id) = true
      · exfalso
        refine hnd.1 ?_
        rw [beq_iff_eq] at hae
        rw [hae]
        exact List.mem_map_of_mem _ hmem2
      · have hrec := ih hnd.2 hmem2
        simp [List.find?_cons, hae, hrec]

theorem employee_payroll_fields {db : DB} {eid : ℕ} {sd ed : ℤ} {wt dt mult : ℚ}
    {emp : Employee} {p : EmployeePayroll}
    (he : get_employee db eid = some emp)
    (hp : calculate_employee_payroll db eid sd ed wt dt mult = .ok p) :
    p.employee_id = eid ∧ p.employee_name = emp.name ∧ p.hourly_rate = emp.hourly_rate := by
  cases hm : shiftHoursList (get_shifts_for_employee db eid sd ed) with
  | error err =>
    rw [employee_payroll_propagates he hm] at hp
    cases hp
  | ok m =>
    rw [employee_payroll_ok he hm] at hp
    injection hp with h2
    subst h2
    exact ⟨rfl, rfl, rfl⟩

theorem weeklyStep_zero {wt dt cum : ℚ} (hdt : 0 ≤ dt) :
    weeklyStep wt dt cum 0 = (0, 0) := by
  unfold weeklyStep calculate_daily_overtime
  rw [if_pos hdt]
  dsimp only
  split_ifs with htr
  · have h0 : wt - cum ≤ 0 := by linarith
    rw [max_eq_left h0]
    norm_num
  · rfl

theorem weekly_zero_list {wt dt : ℚ} (hdt : 0 ≤ dt) :
    ∀ (n : ℕ) (cum : ℚ),
      weeklyLoop wt dt cum (List.replicate n 0) = List.replicate n ((0 : ℚ), (0 : ℚ))
  | 0, _ => rfl
  | n + 1, cum => by
    simp only [List.replicate_succ, weeklyLoop, weeklyStep_zero hdt]
    rw [weekly_zero_list hdt n]
    simp [round2_zero]

theorem payroll_of_empty_zero (emp : Employee) (eid : ℕ) (sd ed : ℤ) (wt dt mult : ℚ)
    (hdt : 0 ≤ dt) :
    (payroll_of emp eid [] sd ed wt dt mult).total_regular_hours = 0 ∧
    (payroll_of emp eid [] sd ed wt dt mult).total_overtime_hours = 0 ∧
    (payroll_of emp eid [] sd ed wt dt mult).total_hours = 0 ∧
    (payroll_of emp eid [] sd ed wt dt mult).regular_pay = 0 ∧
    (payroll_of emp eid [] sd ed wt dt mult).overtime_pay = 0 ∧
    (payroll_of emp eid [] sd ed wt dt mult).total_pay = 0 := by
  have hlist : daily_hours_list_of [] sd ed
      = List.replicate (dateRange sd ed).length (0 : ℚ) := by
    unfold daily_hours_list_of
    have hfun : mapGet [] = fun _ : ℤ => (0 : ℚ) := funext (fun _ => rfl)
    rw [hfun]
    exact List.map_const' _ 0
  have hzero : calculate_weekly_overtime (daily_hours_list_of [] sd ed) wt dt
      = List.replicate (dateRange sd ed).length ((0 : ℚ), (0 : ℚ)) := by
    rw [hlist]
    unfold calculate_weekly_overtime
    exact weekly_zero_list hdt _ 0
  have hregsum : ((daily_breakdown_of [] sd ed wt dt).map (fun dh => dh.regular_hours)).sum
      = 0 := by
    rw [daily_breakdown_regulars, hzero]
    simp
  have hotsum : ((daily_breakdown_of [] sd ed wt dt).map (fun dh => dh.overtime_hours)).sum
      = 0 := by
    rw [daily_breakdown_overtimes, hzero]
    simp
  refine ⟨?_, ?_, ?_, ?_, ?_, ?_⟩
  · show round2 ((daily_breakdown_of [] sd ed wt dt).map (fun dh => dh.regular_hours)).sum = 0
    rw [hregsum, round2_zero]
  · show round2 ((daily_breakdown_of [] sd ed wt dt).map (fun dh => dh.overtime_hours)).sum = 0
    rw [hotsum, round2_zero]
  · show round2 (((daily_breakdown_of [] sd ed wt dt).map (fun dh => dh.regular_hours)).sum
        + ((daily_breakdown_of [] sd ed wt dt).map (fun dh => dh.overtime_hours)).sum) = 0
    rw [hregsum, hotsum, add_zero, round2_zero]
  · show round2 (((daily_breakdown_of [] sd ed wt dt).map (fun dh => dh.regular_hours)).sum
        * emp.hourly_rate) = 0
    rw [hregsum, zero_mul, round2_zero]
  · show round2 (((daily_breakdown_of [] sd ed wt dt).map (fun dh => dh.overtime_hours)).sum
        * emp.hourly_rate * mult) = 0
    rw [hotsum, zero_mul, zero_mul, round2_zero]
  · show round2
        (round2 (((daily_breakdown_of [] sd ed wt dt).map (fun dh => dh.regular_hours)).sum
            * emp.hourly_rate)
          + round2 (((daily_breakdown_of [] sd ed wt dt).map (fun dh => dh.overtime_hours)).sum
            * emp.hourly_rate * mult)) = 0
    rw [hregsum, hotsum, zero_mul, zero_mul, round2_zero, add_zero, round2_zero]

theorem forall₂_strength {α β : Type} {R S : α → β → Prop} :
    ∀ {l1 : List α} {l2 : List β}, List.Forall₂ R l1 l2 →
      (∀ a ∈ l1, ∀ b, R a b → S a b) → List.Forall₂ S l1 l2 := by
  intro l1 l2 h
  induction h with
  | nil => intro; exact List.Forall₂.nil
  | cons hab ht ih =>
    intro hs
    exact List.Forall₂.cons (hs _ (by simp) _ hab)
      (ih (fun a ha b hr => hs a (by simp [ha]) b hr))

theorem forall₂_mem_right {α β : Type} {S : α → β → Prop} :
    ∀ {l1 : List α} {l2 : List β}, List.Forall₂ S l1 l2 →
      ∀ b ∈ l2, ∃ a ∈ l1, S a b := by
  intro l1 l2 h
  induction h with
  | nil => intro b hb; cases hb
  | cons hab ht ih =>
    intro b hb
    rcases List.mem_cons.mp hb with rfl | hb2
    · exact ⟨_, by simp, hab⟩
    · obtain ⟨a, ha, hs⟩ := ih b hb2
      exact ⟨a, by simp [ha], hs⟩

theorem forall₂_map_eq {α β γ : Type} {f : α → γ} {g : β → γ} :
    ∀ {l1 : List α} {l2 : List β},
      List.Forall₂ (fun a b => g b = f a) l1 l2 → l2.map g = l1.map f := by
  intro l1 l2 h
  induction h with
  | nil => rfl
  | cons hab ht ih => simp [hab, ih]

theorem report_ok {db : DB} {sd ed : ℤ} {r : PayrollReport}
    (hr : calculate_payroll_report db sd ed = .ok r) :
    ∃ ps, reportPayrolls db sd ed db.settings.overtime_weekly_threshold
        db.settings.overtime_daily_threshold db.settings.overtime_multiplier
        (get_employees db true) = .ok ps ∧
      r = { start_date := sd, end_date := ed, employees := ps,
            total_employees := ps.length,
            total_regular_hours := round2 ((ps.map (fun p => p.total_regular_hours)).sum),
            total_overtime_hours := round2 ((ps.map (fun p => p.total_overtime_hours)).sum),
            total_hours := round2 ((ps.map (fun p => p.total_hours)).sum),
            total_regular_pay := round2 ((ps.map (fun p => p.regular_pay)).sum),
            total_overtime_pay := round2 ((ps.map (fun p => p.overtime_pay)).sum),
            total_pay := round2 ((ps.map (fun p => p.total_pay)).sum),
            settings := db.settings } := by
  unfold calculate_payroll_report at hr
  dsimp only at hr
  cases hps : reportPayrolls db sd ed db.settings.overtime_weekly_threshold
      db.settings.overtime_daily_threshold db.settings.overtime_multiplier
      (get_employees db true) with
  | error err =>
    rw [hps] at hr
    simp only [exceptErrorBind] at hr
    cases hr
  | ok ps =>
    rw [hps] at hr
    simp only [exceptOkBind] at hr
    injection hr with h2
    exact ⟨ps, rfl, h2.symm⟩

/-- C7: a successful `calculate_payroll_report` contains exactly the active
employees (a permutation of the active rows), each record produced by
`calculate_employee_payroll` under the stored settings, listed in
(byte-order) name order; an active employee with no shift in the range still
appears with all-zero hour and pay figures; and the summary block is the
2-decimal rounding of the per-employee column sums.  Hypotheses: the
employee ids are unique (the table's primary key) and the stored daily
threshold is non-negative. -/
theorem c7_report_active_sorted_zeroed (db : DB) (sd ed : ℤ) (r : PayrollReport)
    (hids : (db.employees.map (fun e => e.id)).Nodup)
    (hdt : 0 ≤ db.settings.overtime_daily_threshold)
    (hr : calculate_payroll_report db sd ed = .ok r) :
    List.Forall₂ (fun (e : Employee) (p : EmployeePayroll) =>
        calculate_employee_payroll db e.id sd ed
            db.settings.overtime_weekly_threshold db.settings.overtime_daily_threshold
            db.settings.overtime_multiplier = .ok p
          ∧ p.employee_id = e.id ∧ p.employee_name = e.name)
      (get_employees db true) r.employees ∧
    (get_employees db true).Perm (db.employees.filter (fun e => e.is_active)) ∧
    List.Pairwise (fun a b : EmployeePayroll =>
      charListLe a.employee_name.data b.employee_name.data = true) r.employees ∧
    (∀ p ∈ r.employees, get_shifts_for_employee db p.employee_id sd ed = [] →
      p.total_regular_hours = 0 ∧ p.total_overtime_hours = 0 ∧ p.total_hours = 0 ∧
      p.regular_pay = 0 ∧ p.overtime_pay = 0 ∧ p.total_pay = 0) ∧
    (r.start_date = sd ∧ r.end_date = ed ∧ r.settings = db.settings ∧
     r.total_employees = r.employees.length ∧
     r.total_regular_hours = round2 ((r.employees.map (fun p => p.total_regular_hours)).sum) ∧
     r.total_overtime_hours = round2 ((r.employees.map (fun p => p.total_overtime_hours)).sum) ∧
     r.total_hours = round2 ((r.employees.map (fun p => p.total_hours)).sum) ∧
     r.total_regular_pay = round2 ((r.employees.map (fun p => p.regular_pay)).sum) ∧
     r.total_overtime_pay = round2 ((r.employees.map (fun p => p.overtime_pay)).sum) ∧
     r.total_pay = round2 ((r.employees.map (fun p => p.total_pay)).sum)) := by
  obtain ⟨ps, hps, hrr⟩ := report_ok hr
  subst hrr
  have hge : ∀ e ∈ get_employees db true, get_employee db e.id = some e := by
    intro e he
    have hmem : e ∈ db.employees := by
      have h1 : e ∈ db.employees.filter (fun x => x.is_active) := by
        have hperm := List.perm_insertionSort nameLe
          (db.employees.filter (fun x => x.is_active))
        exact hperm.mem_iff.mp he
      exact (List.mem_filter.mp h1).1
    exact get_employee_of_mem hids hmem
  have hfa := reportPayrolls_ok_forall hps
  have hfa2 : List.Forall₂ (fun (e : Employee) (p : EmployeePayroll) =>
      calculate_employee_payroll db e.id sd ed
          db.settings.overtime_weekly_threshold db.settings.overtime_daily_threshold
          db.settings.overtime_multiplier = .ok p
        ∧ p.employee_id = e.id ∧ p.employee_name = e.name)
      (get_employees db true) ps := by
    refine forall₂_strength hfa ?_
    intro e he p hp
    obtain ⟨hid, hname, _⟩ := employee_payroll_fields (hge e he) hp
    exact ⟨hp, hid, hname⟩
  have hsorted : List.Sorted nameLe (get_employees db true) := by
    haveI : IsTotal Employee nameLe := ⟨fun a b => charListLe_total _ _⟩
    haveI : IsTrans Employee nameLe := ⟨fun a b c => charListLe_trans _ _ _⟩
    exact List.sorted_insertionSort nameLe _
  have hnames : ps.map (fun p => p.employee_name)
      = (get_employees db true).map (fun e => e.name) := by
    refine forall₂_map_eq (forall₂_strength hfa2 ?_)
    intro e _ p hp
    exact hp.2.2
  refine ⟨hfa2, List.perm_insertionSort nameLe _, ?_, ?_, ?_⟩
  · have h1 : List.Pairwise (fun x y : String => charListLe x.data y.data = true)
        ((get_employees db true).map (fun e => e.name)) :=
      List.Pairwise.map _ (fun a b hab => hab) hsorted
    rw [← hnames] at h1
    exact List.pairwise_map.mp h1
  · intro p hp hshifts
    obtain ⟨e, he, hcalc, hid, _⟩ := forall₂_mem_right hfa2 p hp
    rw [hid] at hshifts
    have hm : shiftHoursList (get_shifts_for_employee db e.id sd ed)
        = .ok ([] : List (ℤ × ℚ)) := by
      rw [hshifts]
      rfl
    rw [employee_payroll_ok (hge e he) hm] at hcalc
    injection hcalc with h2
    rw [← h2]
    exact payroll_of_empty_zero e e.id sd ed db.settings.overtime_weekly_threshold
      db.settings.overtime_daily_threshold db.settings.overtime_multiplier hdt
  · exact ⟨rfl, rfl, rfl, rfl, rfl, rfl, rfl, rfl, rfl, rfl⟩

theorem c7_report_active_sorted_zeroed_witness :
    (c7db.employees.map (fun e => e.id)).Nodup ∧
    (0 : ℚ) ≤ c7db.settings.overtime_daily_threshold ∧
    calculate_payroll_report c7db 0 1 = .ok c7report ∧
    (List.Forall₂ (fun (e : Employee) (p : EmployeePayroll) =>
        calculate_employee_payroll c7db e.id 0 1
            c7db.settings.overtime_weekly_threshold c7db.settings.overtime_daily_threshold
            c7db.settings.overtime_multiplier = .ok p
          ∧ p.employee_id = e.id ∧ p.employee_name = e.name)
      (get_employees c7db true) c7report.employees ∧
    (get_employees c7db true).Perm (c7db.employees.filter (fun e => e.is_active)) ∧
    List.Pairwise (fun a b : EmployeePayroll =>
      charListLe a.employee_name.data b.employee_name.data = true) c7report.employees ∧
    (∀ p ∈ c7report.employees, get_shifts_for_employee c7db p.employee_id 0 1 = [] →
      p.total_regular_hours = 0 ∧ p.total_overtime_hours = 0 ∧ p.total_hours = 0 ∧
      p.regular_pay = 0 ∧ p.overtime_pay = 0 ∧ p.total_pay = 0) ∧
    (c7report.start_date = 0 ∧ c7report.end_date = 1 ∧ c7report.settings = c7db.settings ∧
     c7report.total_employees = c7report.employees.length ∧
     c7report.total_regular_hours
       = round2 ((c7report.employees.map (fun p => p.total_regular_hours)).sum) ∧
     c7report.total_overtime_hours
       = round2 ((c7report.employees.map (fun p => p.total_overtime_hours)).sum) ∧
     c7report.total_hours = round2 ((c7report.employees.map (fun p => p.total_hours)).sum) ∧
     c7report.total_regular_pay
       = round2 ((c7report.employees.map (fun p => p.regular_pay)).sum) ∧
     c7report.total_overtime_pay
       = round2 ((c7report.employees.map (fun p => p.overtime_pay)).sum) ∧
     c7report.total_pay = round2 ((c7report.employees.map (fun p => p.total_pay)).sum))) :=
  ⟨by decide, by decide, by decide,
   c7_report_active_sorted_zeroed c7db 0 1 c7report (by decide) (by decide) (by decide)⟩
